import Mathlib

/-!
Verification of `inventory-provisioners/esxi/inventory.py` (class
`AnsibleInventoryESXI`), an Ansible dynamic-inventory script for a VMware
ESXI host.  The relevant methods — `config_get_vars`, `output_vm_data`,
`output_vm_list_data` — are embedded below as executable Lean functions;
machine-level concerns (YAML parsing, the pyVmomi transport, JSON
serialisation) are outside the embedded fragment.  Strings model Python
`str` values; `Option` models a Python value that may be `None` or a dict
that may be empty; `Except` models an exception escaping the method.
-/

namespace Esxi

/-- Association lookup with Python-dict semantics (first binding wins;
the construction below keeps keys distinct, as a `dict` does). -/
def alookup (k : String) : List (String × α) → Option α
  | [] => none
  | p :: rest => if p.1 = k then some p.2 else alookup k rest

/-- The keys of an association list, in order. -/
def keysOf (l : List (String × α)) : List String := l.map Prod.fst

/-- `d[k] = v` on a Python dict: overwrite in place when the key exists,
append otherwise. -/
def assocSet (l : List (String × α)) (k : String) (v : α) : List (String × α) :=
  if (alookup k l).isSome then l.map (fun p => if p.1 = k then (k, v) else p)
  else l ++ [(k, v)]

/-! ## Data model: one VM record as the script reads it -/

/-- Fields of `vm.guest` read by the script.  `guestId` is `Option` because
pyVmomi reports `None` when the guest id is unset (the script's
`guestId or guestFamily` relies on that). -/
structure VMGuest where
  guestState : String
  toolsStatus : String
  toolsRunningStatus : String
  hostName : String
  ipAddress : String
  guestId : Option String
  guestFamily : String
  guestFullName : String
deriving DecidableEq

/-- Fields of `vm.summary.config` read by the script.  The last field
models `vm.summary.config.annotation`. -/
structure VMSummaryConfig where
  template : Bool
  vmPathName : String
  instanceUuid : String
  annot : String
  memorySizeMB : Nat
  numCpu : Nat
deriving DecidableEq

/-- Fields of `vm.summary.guest` read by the script (`vm_ip_address` comes
from here, not from `vm.guest`). -/
structure VMSummaryGuest where
  ipAddress : String
deriving DecidableEq

/-- Fields of `vm.summary` read by the script; `powerState` models
`vm.summary.runtime.powerState`. -/
structure VMSummary where
  powerState : String
  config : VMSummaryConfig
  guest : VMSummaryGuest
deriving DecidableEq

/-- One VM record from the hypervisor. -/
structure VM where
  name : String
  guest : VMGuest
  summary : VMSummary
deriving DecidableEq

/-- The flat per-host attribute record written by `output_vm_data`
(every match assigns all fourteen keys). -/
structure VMInfo where
  vm_name : String
  vm_state : String
  vm_template : Bool
  vm_path : String
  vm_instance_uuid : String
  vm_annot : String
  vm_spec_memory_mb : Nat
  vm_spec_cpu_count : Nat
  vm_os_type_id : Option String
  vm_os_type_name : String
  vm_tools_status : String
  vm_tools_running_status : String
  vm_hostname : String
  vm_ip_address : String
deriving DecidableEq

/-! ## config_get_vars -/

/-- The five `(environment variable, config-file key)` pairs, in the order
`config_get_vars` reads them. -/
def configPairs : List (String × String) :=
  [("ANSIBLE_INVENTORY_SCRIPT_ESXI_HOST", "esxi_host"),
   ("ANSIBLE_INVENTORY_SCRIPT_ESXI_PORT", "esxi_port"),
   ("ANSIBLE_INVENTORY_SCRIPT_ESXI_USERNAME", "esxi_username"),
   ("ANSIBLE_INVENTORY_SCRIPT_ESXI_PASSWORD", "esxi_password"),
   ("ANSIBLE_INVENTORY_SCRIPT_GROUP_BY", "group_by")]

/-- One field of `config_get_vars`:
`os.getenv(envName, default=config_file_data[fileKey])`.  Python evaluates
the `default=` argument before calling `os.getenv`, so a key missing from
the file raises `KeyError` (caught and turned into `sys.exit(1)`) even
when the environment variable is set; the error carries the file key. -/
def config_get_vars_loop (env file : List (String × String)) :
    List (String × String) → List (String × String) → Except String (List (String × String))
  | acc, [] => Except.ok acc
  | acc, p :: rest =>
    match alookup p.2 file with
    | none => Except.error p.2
    | some fv => config_get_vars_loop env file (acc ++ [(p.2, (alookup p.1 env).getD fv)]) rest

/-- `AnsibleInventoryESXI.config_get_vars`, with the process environment
and the already-loaded YAML mapping passed explicitly. -/
def config_get_vars (env file : List (String × String)) : Except String (List (String × String)) :=
  config_get_vars_loop env file [] configPairs

/-! ## output_vm_data (single-host mode) -/

/-- `host in [ipaddress, hostname]`. -/
def vm_matches (host : String) (vm : VM) : Bool :=
  host == vm.guest.ipAddress || host == vm.guest.hostName

/-- The fourteen `vm_info[...] = ...` assignments executed for a matching
record. -/
def vm_project (vm : VM) : VMInfo :=
  ⟨vm.name, vm.summary.powerState, vm.summary.config.template,
   vm.summary.config.vmPathName, vm.summary.config.instanceUuid,
   vm.summary.config.annot, vm.summary.config.memorySizeMB,
   vm.summary.config.numCpu, vm.guest.guestId, vm.guest.guestFullName,
   vm.guest.toolsStatus, vm.guest.toolsRunningStatus, vm.guest.hostName,
   vm.summary.guest.ipAddress⟩

/-- The `for vm in vm_list` loop of `output_vm_data`: each matching record
overwrites the whole accumulator, a non-matching record leaves it alone. -/
def output_vm_data_loop (host : String) : Option VMInfo → List VM → Option VMInfo
  | acc, [] => acc
  | acc, vm :: rest =>
    output_vm_data_loop host (if vm_matches host vm then some (vm_project vm) else acc) rest

/-- `AnsibleInventoryESXI.output_vm_data` (the `return_dict=True` result):
`none` is the empty dict `{}`, `some info` the fully populated dict. -/
def output_vm_data (vm_list : List VM) (host : String) : Option VMInfo :=
  output_vm_data_loop host none vm_list

/-! ## The annotation pattern

`re.match("(.*)(group=)(\w+)(,|;|:|\s|$)", s)`: anchored at the start,
greedy `(.*)` (which does not cross a newline) picks the rightmost
position, reachable without a newline, at which the literal `group=` is
followed by a non-empty maximal word-character run whose next character is
`,`, `;`, `:`, whitespace, or the end of the string; capture 3 is that
run.  Word characters and whitespace are modelled over the ASCII fragment,
which is the alphabet the script's docstring documents for group names. -/

/-- ASCII word character, `\w`. -/
def isWordChar (c : Char) : Bool :=
  ('a' ≤ c && c ≤ 'z') || ('A' ≤ c && c ≤ 'Z') || ('0' ≤ c && c ≤ '9') || c = '_'

/-- Python `\s` over ASCII: space, tab, newline, carriage return,
vertical tab, form feed. -/
def pyIsSpace (c : Char) : Bool :=
  c = ' ' || c = '\t' || c = '\n' || c = '\r' || c = '\x0b' || c = '\x0c'

/-- A character matching the pattern's fourth piece `(,|;|:|\s)`. -/
def isDelim (c : Char) : Bool :=
  c = ',' || c = ';' || c = ':' || pyIsSpace c

/-- Strip an expected literal off the front of the input. -/
def dropLit : List Char → List Char → Option (List Char)
  | [], s => some s
  | _ :: _, [] => none
  | c :: cs, d :: ds => if c = d then dropLit cs ds else none

/-- The characters of the literal `group=`. -/
def groupLit : List Char := ['g', 'r', 'o', 'u', 'p', '=']

/-- Attempt the tail of the pattern at the current position: `group=`,
then a non-empty maximal word run, then a delimiter or the end.  A
shorter-than-maximal run can never succeed, because the character after
it is a word character, which is neither a delimiter nor the end. -/
def tryHere (s : List Char) : Option (List Char) :=
  match dropLit groupLit s with
  | none => none
  | some rest =>
    match rest.takeWhile isWordChar with
    | [] => none
    | c :: cs =>
      match rest.dropWhile isWordChar with
      | [] => some (c :: cs)
      | d :: _ => if isDelim d then some (c :: cs) else none

/-- Greedy `(.*)`: prefer the match at the latest position; a position is
reachable only if no newline stands before it (`.` does not match a
newline). -/
def annotMatch : List Char → Option (List Char)
  | [] => none
  | c :: rest =>
    match (if c = '\n' then none else annotMatch rest) with
    | some r => some r
    | none => tryHere (c :: rest)

/-- `regexp.groups()[2] if regexp else 'ungrouped'` for
`re.match("(.*)(group=)(\w+)(,|;|:|\s|$)", s)`. -/
def annotGroup (s : String) : String :=
  match annotMatch s.data with
  | some run => String.mk run
  | none => "ungrouped"

/-! ## output_vm_list_data (list mode) -/

/-- Python `a or b` on an optional string: `b` when `a` is `None` or
empty (both falsy), else the contents of `a`. -/
def pyOr (a : Option String) (b : String) : String :=
  match a with
  | none => b
  | some s => if s = "" then b else s

/-- The group of a record under a grouping key; `none` when `group_by` is
neither recognised literal, in which case the Python local `group` is
never assigned and its first use raises `UnboundLocalError`. -/
def vm_group (group_by : String) (vm : VM) : Option String :=
  if group_by = "vm_os_type_id" then some (pyOr vm.guest.guestId vm.guest.guestFamily)
  else if group_by = "vm_annotation_group" then some (annotGroup vm.summary.config.annot)
  else none

/-- An exception escaping `output_vm_list_data`: `nameError` is the
`UnboundLocalError` on an unassigned `group`; `keyError` is the
`KeyError` raised by `inventory[group]['hosts']` when the group name
collides with the pre-seeded `'all'` or `'_meta'` dict keys. -/
inductive PyError where
  | nameError : PyError
  | keyError : PyError
deriving DecidableEq

/-- The inventory dict under construction: `all.children`, the per-group
`hosts` lists (in creation order), and `_meta.hostvars`. -/
structure Inventory where
  children : List String
  groups : List (String × List String)
  hostvars : List (String × Option VMInfo)
deriving DecidableEq

/-- `hosts.append(value)` on every entry of the given group. -/
def groupsAppend (l : List (String × List String)) (g v : String) : List (String × List String) :=
  l.map (fun p => if p.1 = g then (p.1, p.2 ++ [v]) else p)

/-- One iteration of the `for vm in vm_list` loop of
`output_vm_list_data`: skip a record that is powered off or has no guest
tools; compute the group (an unrecognised `group_by` leaves `group`
unbound); record the group in `children` at first occurrence; create the
group's `hosts` list unless the dict already has the key (for `'all'` and
`'_meta'` the key exists but has no `'hosts'` entry, so the append raises
`KeyError`); append the host identifier; store the single-host projection
of the *full* list under that identifier. -/
def list_step (full : List VM) (group_by : String) (use_ip : Bool) (inv : Inventory) (vm : VM) :
    Except PyError Inventory :=
  if vm.guest.guestState == "notRunning" then Except.ok inv
  else if vm.guest.toolsStatus == "toolsNotInstalled" then Except.ok inv
  else
    match vm_group group_by vm with
    | none => Except.error PyError.nameError
    | some group =>
      let children := if group ∈ inv.children then inv.children else inv.children ++ [group]
      if group = "all" ∨ group = "_meta" then Except.error PyError.keyError
      else
        let groups :=
          match alookup group inv.groups with
          | some _ => inv.groups
          | none => inv.groups ++ [(group, [])]
        let value := if use_ip then vm.guest.ipAddress else vm.guest.hostName
        Except.ok ⟨children, groupsAppend groups group value,
                   assocSet inv.hostvars value (output_vm_data full value)⟩

/-- The whole loop of `output_vm_list_data`; an exception aborts it. -/
def list_loop (full : List VM) (group_by : String) (use_ip : Bool) :
    Inventory → List VM → Except PyError Inventory
  | inv, [] => Except.ok inv
  | inv, vm :: rest =>
    match list_step full group_by use_ip inv vm with
    | Except.error e => Except.error e
    | Except.ok inv₂ => list_loop full group_by use_ip inv₂ rest

/-- `AnsibleInventoryESXI.output_vm_list_data` up to JSON serialisation:
the inventory starts with empty `children` and `hostvars`, and the loop
runs over the same list that is rescanned for each hostvars entry. -/
def output_vm_list_data (vm_list : List VM) (group_by : String) (use_ip : Bool) :
    Except PyError Inventory :=
  list_loop vm_list group_by use_ip ⟨[], [], []⟩ vm_list

/-- A record survives the two `continue` filters of the list-mode loop. -/
def eligible (vm : VM) : Bool :=
  !(vm.guest.guestState == "notRunning") && !(vm.guest.toolsStatus == "toolsNotInstalled")

/-! ## Concrete fixtures

Fields of `VMGuest`, in order: guestState, toolsStatus,
toolsRunningStatus, hostName, ipAddress, guestId, guestFamily,
guestFullName.  Fields of `VMSummaryConfig`: template, vmPathName,
instanceUuid, annot, memorySizeMB, numCpu. -/

/-- A running Ubuntu guest named `A` with hostname `h`. -/
def vmA : VM :=
  ⟨"A",
   ⟨"running", "toolsOk", "guestToolsRunning", "h", "10.0.0.5",
    some "ubuntu64Guest", "linuxGuest", "Ubuntu Linux (64-bit)"⟩,
   ⟨"poweredOn",
    ⟨false, "[ds] A/A.vmx", "uuid-a", "", 1024, 2⟩,
    ⟨"10.0.0.5"⟩⟩⟩

/-- A powered-off guest named `B` sharing hostname `h` with `vmA`; the
list-mode loop skips it. -/
def vmB : VM :=
  ⟨"B",
   ⟨"notRunning", "toolsOk", "guestToolsNotRunning", "h", "10.0.0.9",
    some "ubuntu64Guest", "linuxGuest", "Ubuntu Linux (64-bit)"⟩,
   ⟨"poweredOff",
    ⟨false, "[ds] B/B.vmx", "uuid-b", "", 2048, 4⟩,
    ⟨"10.0.0.9"⟩⟩⟩

/-- A second running Ubuntu guest named `C` sharing IP `10.0.0.5` with
`vmA`. -/
def vmC : VM :=
  ⟨"C",
   ⟨"running", "toolsOk", "guestToolsRunning", "c-host", "10.0.0.5",
    some "ubuntu64Guest", "linuxGuest", "Ubuntu Linux (64-bit)"⟩,
   ⟨"poweredOn",
    ⟨false, "[ds] C/C.vmx", "uuid-c", "", 512, 1⟩,
    ⟨"10.0.0.5"⟩⟩⟩

/-- A running guest whose annotation carries `group=web1`. -/
def vmAnnotProd : VM :=
  ⟨"P",
   ⟨"running", "toolsOk", "guestToolsRunning", "p-host", "10.0.0.7",
    some "ubuntu64Guest", "linuxGuest", "Ubuntu Linux (64-bit)"⟩,
   ⟨"poweredOn",
    ⟨false, "[ds] P/P.vmx", "uuid-p", "env=prod,group=web1;team=x", 1024, 2⟩,
    ⟨"10.0.0.7"⟩⟩⟩

/-- A running guest whose annotation has no `group=` field. -/
def vmAnnotPlain : VM :=
  ⟨"Q",
   ⟨"running", "toolsOk", "guestToolsRunning", "q-host", "10.0.0.8",
    some "ubuntu64Guest", "linuxGuest", "Ubuntu Linux (64-bit)"⟩,
   ⟨"poweredOn",
    ⟨false, "[ds] Q/Q.vmx", "uuid-q", "no group here", 1024, 2⟩,
    ⟨"10.0.0.8"⟩⟩⟩

/-- An environment with only the host variable set. -/
def envHostSet : List (String × String) := [("ANSIBLE_INVENTORY_SCRIPT_ESXI_HOST", "192.0.2.1")]

/-- A configuration file carrying all five required keys. -/
def fileAll : List (String × String) :=
  [("esxi_host", "192.168.88.4"), ("esxi_port", "443"), ("esxi_username", "root"),
   ("esxi_password", "PASSWORD"), ("group_by", "vm_os_type_id")]

/-- The same configuration file with `esxi_host` removed. -/
def fileNoHost : List (String × String) :=
  [("esxi_port", "443"), ("esxi_username", "root"),
   ("esxi_password", "PASSWORD"), ("group_by", "vm_os_type_id")]

/-! ## Specification-side functions (named from the spec's wording, for
comparison with the embedded code) -/

/-- The last record of the list satisfying `p`, in iteration order. -/
def lastMatchingRecord (p : VM → Bool) : List VM → Option VM
  | [] => none
  | vm :: rest =>
    match lastMatchingRecord p rest with
    | some w => some w
    | none => if p vm then some vm else none

/-- The host identifier of a record in list mode. -/
def hostId (use_ip : Bool) (vm : VM) : String :=
  if use_ip then vm.guest.ipAddress else vm.guest.hostName

/-- The groups of the eligible records, in iteration order. -/
def eligGroups (group_by : String) (l : List VM) : List String :=
  (l.filter eligible).filterMap (vm_group group_by)

/-- Deduplication keeping the first occurrence, starting from `acc`. -/
def firstOccur (acc : List String) : List String → List String
  | [] => acc
  | g :: gs => firstOccur (if g ∈ acc then acc else acc ++ [g]) gs

/-- The host identifiers of the eligible records carrying group `g`, in
iteration order (one entry per qualifying record). -/
def hostsSpec (l : List VM) (group_by : String) (use_ip : Bool) (g : String) : List String :=
  ((l.filter eligible).filter (fun vm => decide (vm_group group_by vm = some g))).map (hostId use_ip)

/-- All host identifiers appearing in any group's `hosts` list. -/
def hostsOf (groups : List (String × List String)) : List String :=
  (groups.map Prod.snd).flatten

/-- The keys of `_meta.hostvars`. -/
def hvKeys (inv : Inventory) : List String := keysOf inv.hostvars

/-- The hostvars entry stored under a key, read off a list-mode result. -/
def hostvarsAt (r : Except PyError Inventory) (h : String) : Option (Option VMInfo) :=
  match r with
  | Except.ok inv => alookup h inv.hostvars
  | Except.error _ => none

/-- The parts of a list-mode result that ignore hostvars values: the
error status, `all.children`, the per-group `hosts` lists, and the
`_meta.hostvars` key set. -/
def invSkeleton (r : Except PyError Inventory) :
    Except PyError (List String × List (String × List String) × List String) :=
  match r with
  | Except.error e => Except.error e
  | Except.ok inv => Except.ok (inv.children, inv.groups, hvKeys inv)

/-- Two inventory states that agree on everything except possibly the
values stored in hostvars. -/
def invSim (a b : Inventory) : Prop :=
  a.children = b.children ∧ a.groups = b.groups ∧ hvKeys a = hvKeys b

/-- The list-mode result for `[vmA]` grouped by OS type, hostname keys. -/
def cInvA : Inventory :=
  ⟨["ubuntu64Guest"], [("ubuntu64Guest", ["h"])], [("h", some (vm_project vmA))]⟩

/-- The list-mode result for `[vmA, vmB]`: the powered-off `vmB` adds no
key, but the rescan stores its projection under the shared hostname. -/
def cInvAB : Inventory :=
  ⟨["ubuntu64Guest"], [("ubuntu64Guest", ["h"])], [("h", some (vm_project vmB))]⟩

/-- The list-mode result for `[vmA, vmC]` with IP keys: the shared IP is
appended twice. -/
def cInvDup : Inventory :=
  ⟨["ubuntu64Guest"], [("ubuntu64Guest", ["10.0.0.5", "10.0.0.5"])],
   [("10.0.0.5", some (vm_project vmC))]⟩

/-- The inventory after one eligible iteration whose group is `group`:
`children` gains the group at first occurrence, the group's `hosts` list
gains the host identifier, and hostvars gains the full-list rescan under
that identifier. -/
def step_next (full : List VM) (use_ip : Bool) (inv : Inventory) (group : String) (vm : VM) :
    Inventory :=
  ⟨(if group ∈ inv.children then inv.children else inv.children ++ [group]),
   groupsAppend
     (match alookup group inv.groups with
      | some _ => inv.groups
      | none => inv.groups ++ [(group, [])]) group (hostId use_ip vm),
   assocSet inv.hostvars (hostId use_ip vm) (output_vm_data full (hostId use_ip vm))⟩

/-! ## Lemmas about output_vm_data -/

lemma output_vm_data_loop_eq (host : String) (l : List VM) (acc : Option VMInfo) :
    output_vm_data_loop host acc l =
      match lastMatchingRecord (vm_matches host) l with
      | some w => some (vm_project w)
      | none => acc := by
  induction l generalizing acc with
  | nil => rfl
  | cons vm rest ih =>
    cases h : lastMatchingRecord (vm_matches host) rest with
    | some w => simp only [output_vm_data_loop, lastMatchingRecord, h, ih]
    | none =>
      cases hp : vm_matches host vm <;>
        simp [output_vm_data_loop, lastMatchingRecord, h, ih, hp]

lemma output_vm_data_eq_lastMatch (l : List VM) (host : String) :
    output_vm_data l host = Option.map vm_project (lastMatchingRecord (vm_matches host) l) := by
  unfold output_vm_data
  rw [output_vm_data_loop_eq]
  cases lastMatchingRecord (vm_matches host) l <;> rfl

lemma lastMatchingRecord_eq_none (p : VM → Bool) (l : List VM)
    (h : ∀ vm ∈ l, p vm = false) : lastMatchingRecord p l = none := by
  induction l with
  | nil => rfl
  | cons vm rest ih =>
    have hvm : p vm = false := h vm (List.mem_cons_self vm rest)
    have hrest : lastMatchingRecord p rest = none :=
      ih fun w hw => h w (List.mem_cons_of_mem vm hw)
    simp [lastMatchingRecord, hrest, hvm]

/-! ## Lemmas about one iteration of the list-mode loop -/

lemma list_step_skip (full : List VM) (gb : String) (ip : Bool) (inv : Inventory) (vm : VM)
    (h : eligible vm = false) : list_step full gb ip inv vm = Except.ok inv := by
  cases h1 : (vm.guest.guestState == "notRunning") with
  | true => simp [list_step, h1]
  | false =>
    cases h2 : (vm.guest.toolsStatus == "toolsNotInstalled") with
    | true => simp [list_step, h1, h2]
    | false => simp [eligible, h1, h2] at h

lemma list_step_elig (full : List VM) (gb : String) (ip : Bool) (inv : Inventory) (vm : VM)
    (h : eligible vm = true) :
    list_step full gb ip inv vm =
      match vm_group gb vm with
      | none => Except.error PyError.nameError
      | some group =>
        if group = "all" ∨ group = "_meta" then Except.error PyError.keyError
        else Except.ok (step_next full ip inv group vm) := by
  have h12 := h
  simp only [eligible, Bool.and_eq_true, Bool.not_eq_true'] at h12
  obtain ⟨h1, h2⟩ := h12
  simp only [list_step, h1, h2, step_next, hostId]
  rfl

/-! ## Unrecognised group_by (claim C10) -/

lemma vm_group_unrec (gb : String) (vm : VM)
    (h1 : gb ≠ "vm_os_type_id") (h2 : gb ≠ "vm_annotation_group") :
    vm_group gb vm = none := by
  simp [vm_group, h1, h2]

lemma list_loop_all_inelig (full : List VM) (gb : String) (ip : Bool) :
    ∀ l inv, (∀ vm ∈ l, eligible vm = false) → list_loop full gb ip inv l = Except.ok inv := by
  intro l
  induction l with
  | nil => intro inv _; rfl
  | cons vm rest ih =>
    intro inv h
    have hs := list_step_skip full gb ip inv vm (h vm (List.mem_cons_self vm rest))
    simp only [list_loop, hs]
    exact ih inv fun w hw => h w (List.mem_cons_of_mem vm hw)

lemma list_loop_unrec (full : List VM) (gb : String) (ip : Bool)
    (h1 : gb ≠ "vm_os_type_id") (h2 : gb ≠ "vm_annotation_group") :
    ∀ l inv, l.any eligible = true → list_loop full gb ip inv l = Except.error PyError.nameError := by
  intro l
  induction l with
  | nil => intro inv h; simp at h
  | cons vm rest ih =>
    intro inv h
    cases he : eligible vm with
    | true =>
      have hs := list_step_elig full gb ip inv vm he
      rw [vm_group_unrec gb vm h1 h2] at hs
      simp only [list_loop, hs]
    | false =>
      have hr : rest.any eligible = true := by
        rcases List.any_eq_true.mp h with ⟨w, hw, hwe⟩
        rcases List.mem_cons.mp hw with rfl | hw2
        · rw [he] at hwe; cases hwe
        · exact List.any_eq_true.mpr ⟨w, hw2, hwe⟩
      have hs := list_step_skip full gb ip inv vm he
      simp only [list_loop, hs]
      exact ih inv hr

/-! ## Association-list lemmas -/

lemma alookup_isSome_iff {α : Type} (k : String) (l : List (String × α)) :
    (alookup k l).isSome ↔ k ∈ keysOf l := by
  induction l with
  | nil => simp [alookup, keysOf]
  | cons p rest ih =>
    by_cases h : p.1 = k
    · simp [alookup, keysOf, h]
    · have halo : alookup k (p :: rest) = alookup k rest := by simp [alookup, h]
      rw [halo, ih]
      simp only [keysOf, List.map_cons, List.mem_cons]
      constructor
      · exact Or.inr
      · rintro (hk | hm)
        · exact absurd hk.symm h
        · exact hm

lemma alookup_isSome_exists {α : Type} (k : String) (l : List (String × α))
    (h : (alookup k l).isSome) : ∃ q ∈ l, q.1 = k := by
  have hm := (alookup_isSome_iff k l).mp h
  simp only [keysOf, List.mem_map] at hm
  exact hm

lemma keysOf_map_ite {α : Type} (l : List (String × α)) (k : String) (v : α) :
    keysOf (l.map fun p => if p.1 = k then (k, v) else p) = keysOf l := by
  simp only [keysOf, List.map_map]
  apply List.map_congr_left
  intro a _
  by_cases ha : a.1 = k
  · simp [Function.comp, ha]
  · simp [Function.comp, ha]

lemma keysOf_assocSet {α : Type} (l : List (String × α)) (k : String) (v : α) :
    keysOf (assocSet l k v) = if k ∈ keysOf l then keysOf l else keysOf l ++ [k] := by
  unfold assocSet
  by_cases h : (alookup k l).isSome
  · rw [if_pos h, keysOf_map_ite, if_pos ((alookup_isSome_iff k l).mp h)]
  · rw [if_neg h, if_neg fun hm => h ((alookup_isSome_iff k l).mpr hm)]
    simp [keysOf]

lemma mem_keysOf_assocSet {α : Type} (x k : String) (l : List (String × α)) (v : α) :
    x ∈ keysOf (assocSet l k v) ↔ x ∈ keysOf l ∨ x = k := by
  rw [keysOf_assocSet]
  by_cases hm : k ∈ keysOf l
  · rw [if_pos hm]
    constructor
    · exact Or.inl
    · rintro (hx | rfl)
      · exact hx
      · exact hm
  · rw [if_neg hm]; simp

lemma nodup_keysOf_assocSet {α : Type} (l : List (String × α)) (k : String) (v : α)
    (h : (keysOf l).Nodup) : (keysOf (assocSet l k v)).Nodup := by
  rw [keysOf_assocSet]
  by_cases hm : k ∈ keysOf l
  · rwa [if_pos hm]
  · rw [if_neg hm]
    simp [List.nodup_append, h, hm]

lemma alookup_map_ite_self {α : Type} (k : String) (l : List (String × α)) (v : α)
    (hk : (alookup k l).isSome) :
    alookup k (l.map fun p => if p.1 = k then (k, v) else p) = some v := by
  induction l with
  | nil => simp [alookup] at hk
  | cons p rest ih =>
    by_cases h : p.1 = k
    · simp [alookup, h]
    · have hk₂ : (alookup k rest).isSome := by simpa [alookup, h] using hk
      simp [alookup, h, ih hk₂]

lemma alookup_map_ite_ne {α : Type} (x k : String) (hx : x ≠ k) (l : List (String × α)) (v : α) :
    alookup x (l.map fun p => if p.1 = k then (k, v) else p) = alookup x l := by
  induction l with
  | nil => rfl
  | cons p rest ih =>
    simp only [List.map_cons]
    by_cases h : p.1 = k
    · rw [if_pos h]
      have hkx : ¬ (k = x) := fun hh => hx hh.symm
      have hpx : ¬ (p.1 = x) := by rw [h]; exact hkx
      simp only [alookup, if_neg hkx, if_neg hpx, ih]
    · rw [if_neg h]
      simp only [alookup, ih]

lemma alookup_append_last_self {α : Type} (k : String) (l : List (String × α)) (v : α)
    (h : alookup k l = none) : alookup k (l ++ [(k, v)]) = some v := by
  induction l with
  | nil => simp [alookup]
  | cons p rest ih =>
    by_cases hp : p.1 = k
    · simp [alookup, hp] at h
    · have h₂ : alookup k rest = none := by simpa [alookup, hp] using h
      simp [alookup, hp, ih h₂]

lemma alookup_append_last_ne {α : Type} (x k : String) (hx : x ≠ k) (l : List (String × α))
    (v : α) : alookup x (l ++ [(k, v)]) = alookup x l := by
  induction l with
  | nil =>
    have hkx : ¬ (k = x) := fun hh => hx hh.symm
    simp [alookup, hkx]
  | cons p rest ih =>
    by_cases hp : p.1 = x <;> simp [alookup, hp, ih]

lemma alookup_assocSet {α : Type} (x k : String) (l : List (String × α)) (v : α) :
    alookup x (assocSet l k v) = if x = k then some v else alookup x l := by
  unfold assocSet
  by_cases hs : (alookup k l).isSome
  · rw [if_pos hs]
    by_cases hx : x = k
    · subst hx; rw [if_pos rfl, alookup_map_ite_self x l v hs]
    · rw [if_neg hx, alookup_map_ite_ne x k hx l v]
  · rw [if_neg hs]
    by_cases hx : x = k
    · subst hx
      have hnone : alookup x l = none := by
        cases hh : alookup x l
        · rfl
        · rw [hh] at hs; simp at hs
      rw [if_pos rfl, alookup_append_last_self x l v hnone]
    · rw [if_neg hx, alookup_append_last_ne x k hx l v]

/-! ## Lemmas about the per-group hosts lists -/

lemma keysOf_groupsAppend (l : List (String × List String)) (g v : String) :
    keysOf (groupsAppend l g v) = keysOf l := by
  simp only [groupsAppend, keysOf, List.map_map]
  apply List.map_congr_left
  intro a _
  by_cases ha : a.1 = g
  · simp [Function.comp, ha]
  · simp [Function.comp, ha]

lemma alookup_groupsAppend_self (g : String) (l : List (String × List String)) (v : String) :
    alookup g (groupsAppend l g v) = (alookup g l).map (fun hs => hs ++ [v]) := by
  induction l with
  | nil => rfl
  | cons p rest ih =>
    simp only [groupsAppend, List.map_cons] at ih ⊢
    by_cases h : p.1 = g
    · rw [if_pos h]
      simp [alookup, h]
    · rw [if_neg h]
      simp [alookup, h, ih]

lemma alookup_groupsAppend_ne (x g : String) (hx : x ≠ g) (l : List (String × List String))
    (v : String) : alookup x (groupsAppend l g v) = alookup x l := by
  induction l with
  | nil => rfl
  | cons p rest ih =>
    simp only [groupsAppend, List.map_cons] at ih ⊢
    by_cases h : p.1 = g
    · rw [if_pos h]
      have hpx : ¬ (p.1 = x) := by rw [h]; exact fun hh => hx hh.symm
      simp only [alookup, if_neg hpx, ih]
    · rw [if_neg h]
      simp only [alookup, ih]

lemma mem_hostsOf {x : String} {l : List (String × List String)} :
    x ∈ hostsOf l ↔ ∃ p, p ∈ l ∧ x ∈ p.2 := by
  simp only [hostsOf, List.mem_flatten, List.mem_map]
  constructor
  · rintro ⟨s, ⟨p, hp, rfl⟩, hx⟩
    exact ⟨p, hp, hx⟩
  · rintro ⟨p, hp, hx⟩
    exact ⟨p.2, ⟨p, hp, rfl⟩, hx⟩

lemma hostsOf_append_nil (l : List (String × List String)) (g : String) :
    hostsOf (l ++ [(g, [])]) = hostsOf l := by
  simp [hostsOf]

lemma mem_hostsOf_groupsAppend (x g v : String) (l : List (String × List String))
    (hg : (alookup g l).isSome) :
    x ∈ hostsOf (groupsAppend l g v) ↔ x ∈ hostsOf l ∨ x = v := by
  obtain ⟨q, hq, hq1⟩ := alookup_isSome_exists g l hg
  simp only [groupsAppend]
  constructor
  · intro hx
    rcases mem_hostsOf.mp hx with ⟨p, hp, hxp⟩
    rcases List.mem_map.mp hp with ⟨p₀, hp₀, rfl⟩
    by_cases h : p₀.1 = g
    · rw [if_pos h] at hxp
      rcases List.mem_append.mp hxp with hx₂ | hx₂
      · exact Or.inl (mem_hostsOf.mpr ⟨p₀, hp₀, hx₂⟩)
      · exact Or.inr (List.mem_singleton.mp hx₂)
    · rw [if_neg h] at hxp
      exact Or.inl (mem_hostsOf.mpr ⟨p₀, hp₀, hxp⟩)
  · rintro (hx | rfl)
    · rcases mem_hostsOf.mp hx with ⟨p, hp, hxp⟩
      refine mem_hostsOf.mpr
        ⟨(if p.1 = g then (p.1, p.2 ++ [v]) else p), List.mem_map.mpr ⟨p, hp, rfl⟩, ?_⟩
      by_cases h : p.1 = g
      · rw [if_pos h]
        exact List.mem_append.mpr (Or.inl hxp)
      · rw [if_neg h]
        exact hxp
    · refine mem_hostsOf.mpr ⟨(q.1, q.2 ++ [x]), List.mem_map.mpr ⟨q, hq, ?_⟩, ?_⟩
      · rw [if_pos hq1]
      · exact List.mem_append.mpr (Or.inr (List.mem_singleton.mpr rfl))

/-! ## The groups/hostvars round-trip invariant (claim C3) -/

lemma mem_hostsOf_step_next (full : List VM) (ip : Bool) (inv : Inventory) (group : String)
    (vm : VM) (x : String) :
    x ∈ hostsOf (step_next full ip inv group vm).groups ↔
      x ∈ hostsOf inv.groups ∨ x = hostId ip vm := by
  simp only [step_next]
  cases halo : alookup group inv.groups with
  | some hs =>
    exact mem_hostsOf_groupsAppend x group (hostId ip vm) inv.groups (by simp [halo])
  | none =>
    have hg : (alookup group (inv.groups ++ [(group, [])])).isSome := by
      rw [alookup_append_last_self group inv.groups [] halo]
      rfl
    rw [mem_hostsOf_groupsAppend x group (hostId ip vm) (inv.groups ++ [(group, [])]) hg,
        hostsOf_append_nil]

lemma mem_hvKeys_step_next (full : List VM) (ip : Bool) (inv : Inventory) (group : String)
    (vm : VM) (x : String) :
    x ∈ hvKeys (step_next full ip inv group vm) ↔ x ∈ hvKeys inv ∨ x = hostId ip vm := by
  simp only [step_next, hvKeys]
  exact mem_keysOf_assocSet x (hostId ip vm) inv.hostvars (output_vm_data full (hostId ip vm))

lemma list_step_hosts_hostvars (full : List VM) (gb : String) (ip : Bool) (inv : Inventory)
    (vm : VM) (inv₂ : Inventory) (hstep : list_step full gb ip inv vm = Except.ok inv₂)
    (hinv : (∀ x, x ∈ hostsOf inv.groups ↔ x ∈ hvKeys inv) ∧ (hvKeys inv).Nodup) :
    (∀ x, x ∈ hostsOf inv₂.groups ↔ x ∈ hvKeys inv₂) ∧ (hvKeys inv₂).Nodup := by
  cases he : eligible vm with
  | false =>
    rw [list_step_skip full gb ip inv vm he] at hstep
    rw [← Except.ok.inj hstep]
    exact hinv
  | true =>
    rw [list_step_elig full gb ip inv vm he] at hstep
    cases hgr : vm_group gb vm with
    | none =>
      simp only [hgr] at hstep
      exact Except.noConfusion hstep
    | some group =>
      simp only [hgr] at hstep
      by_cases hm : group = "all" ∨ group = "_meta"
      · rw [if_pos hm] at hstep
        exact Except.noConfusion hstep
      · rw [if_neg hm] at hstep
        rw [← Except.ok.inj hstep]
        constructor
        · intro x
          rw [mem_hostsOf_step_next, mem_hvKeys_step_next, hinv.1 x]
        · simp only [step_next, hvKeys]
          exact nodup_keysOf_assocSet inv.hostvars (hostId ip vm)
            (output_vm_data full (hostId ip vm)) hinv.2

lemma list_loop_hosts_hostvars (full : List VM) (gb : String) (ip : Bool) :
    ∀ l inv inv₂, list_loop full gb ip inv l = Except.ok inv₂ →
      ((∀ x, x ∈ hostsOf inv.groups ↔ x ∈ hvKeys inv) ∧ (hvKeys inv).Nodup) →
      ((∀ x, x ∈ hostsOf inv₂.groups ↔ x ∈ hvKeys inv₂) ∧ (hvKeys inv₂).Nodup) := by
  intro l
  induction l with
  | nil =>
    intro inv inv₂ h hi
    rw [← Except.ok.inj h]
    exact hi
  | cons vm rest ih =>
    intro inv inv₂ h hi
    cases hstep : list_step full gb ip inv vm with
    | error e => simp [list_loop, hstep] at h
    | ok inv₁ =>
      simp only [list_loop, hstep] at h
      exact ih inv₁ inv₂ h (list_step_hosts_hostvars full gb ip inv vm inv₁ hstep hi)

/-! ## Children are first occurrences of eligible groups (claim C7) -/

lemma eligGroups_cons_inelig (gb : String) (l : List VM) (vm : VM) (he : eligible vm = false) :
    eligGroups gb (vm :: l) = eligGroups gb l := by
  simp [eligGroups, List.filter_cons, he]

lemma eligGroups_cons_elig (gb : String) (l : List VM) (vm : VM) (g : String)
    (he : eligible vm = true) (hg : vm_group gb vm = some g) :
    eligGroups gb (vm :: l) = g :: eligGroups gb l := by
  simp [eligGroups, List.filter_cons, he, List.filterMap_cons, hg]

lemma firstOccur_nodup : ∀ (gs acc : List String), acc.Nodup → (firstOccur acc gs).Nodup := by
  intro gs
  induction gs with
  | nil => intro acc h; exact h
  | cons g rest ih =>
    intro acc h
    simp only [firstOccur]
    apply ih
    by_cases hm : g ∈ acc
    · rwa [if_pos hm]
    · rw [if_neg hm]
      simp [List.nodup_append, h, hm]

lemma list_loop_children (full : List VM) (gb : String) (ip : Bool) :
    ∀ l inv inv₂, list_loop full gb ip inv l = Except.ok inv₂ →
      inv₂.children = firstOccur inv.children (eligGroups gb l) := by
  intro l
  induction l with
  | nil =>
    intro inv inv₂ h
    rw [← Except.ok.inj h]
    simp [eligGroups, firstOccur]
  | cons vm rest ih =>
    intro inv inv₂ h
    cases he : eligible vm with
    | false =>
      have hs := list_step_skip full gb ip inv vm he
      simp only [list_loop, hs] at h
      rw [eligGroups_cons_inelig gb rest vm he]
      exact ih inv inv₂ h
    | true =>
      have hs := list_step_elig full gb ip inv vm he
      cases hgr : vm_group gb vm with
      | none =>
        simp only [hgr] at hs
        simp only [list_loop, hs] at h
        exact Except.noConfusion h
      | some group =>
        simp only [hgr] at hs
        by_cases hm : group = "all" ∨ group = "_meta"
        · rw [if_pos hm] at hs
          simp only [list_loop, hs] at h
          exact Except.noConfusion h
        · rw [if_neg hm] at hs
          simp only [list_loop, hs] at h
          rw [eligGroups_cons_elig gb rest vm group he hgr,
              ih (step_next full ip inv group vm) inv₂ h]
          simp [firstOccur, step_next]

/-! ## Per-group hosts lists: one append per qualifying record (claim C8) -/

lemma hostsSpec_cons_inelig (l : List VM) (gb : String) (ip : Bool) (g : String) (vm : VM)
    (he : eligible vm = false) : hostsSpec (vm :: l) gb ip g = hostsSpec l gb ip g := by
  simp [hostsSpec, List.filter_cons, he]

lemma hostsSpec_cons_elig_eq (l : List VM) (gb : String) (ip : Bool) (g : String) (vm : VM)
    (he : eligible vm = true) (hg : vm_group gb vm = some g) :
    hostsSpec (vm :: l) gb ip g = hostId ip vm :: hostsSpec l gb ip g := by
  simp [hostsSpec, List.filter_cons, he, hg]

lemma hostsSpec_cons_elig_ne (l : List VM) (gb : String) (ip : Bool) (g g₀ : String) (vm : VM)
    (he : eligible vm = true) (hg : vm_group gb vm = some g₀) (hne : g₀ ≠ g) :
    hostsSpec (vm :: l) gb ip g = hostsSpec l gb ip g := by
  simp [hostsSpec, List.filter_cons, he, hg, hne]

lemma list_loop_groups (full : List VM) (gb : String) (ip : Bool) :
    ∀ l inv inv₂, list_loop full gb ip inv l = Except.ok inv₂ → ∀ g,
      alookup g inv₂.groups =
        if (alookup g inv.groups).isSome ∨ hostsSpec l gb ip g ≠ [] then
          some ((alookup g inv.groups).getD [] ++ hostsSpec l gb ip g)
        else none := by
  intro l
  induction l with
  | nil =>
    intro inv inv₂ h g
    rw [← Except.ok.inj h]
    cases halo : alookup g inv.groups <;> simp [hostsSpec, halo]
  | cons vm rest ih =>
    intro inv inv₂ h g
    cases he : eligible vm with
    | false =>
      have hs := list_step_skip full gb ip inv vm he
      simp only [list_loop, hs] at h
      rw [hostsSpec_cons_inelig rest gb ip g vm he]
      exact ih inv inv₂ h g
    | true =>
      have hs := list_step_elig full gb ip inv vm he
      cases hgr : vm_group gb vm with
      | none =>
        simp only [hgr] at hs
        simp only [list_loop, hs] at h
        exact Except.noConfusion h
      | some g₀ =>
        simp only [hgr] at hs
        by_cases hm : g₀ = "all" ∨ g₀ = "_meta"
        · rw [if_pos hm] at hs
          simp only [list_loop, hs] at h
          exact Except.noConfusion h
        · rw [if_neg hm] at hs
          simp only [list_loop, hs] at h
          have hN := ih (step_next full ip inv g₀ vm) inv₂ h g
          by_cases hgg : g = g₀
          · subst hgg
            rw [hostsSpec_cons_elig_eq rest gb ip g vm he hgr]
            have hlook : alookup g (step_next full ip inv g vm).groups =
                some ((alookup g inv.groups).getD [] ++ [hostId ip vm]) := by
              simp only [step_next]
              cases halo : alookup g inv.groups with
              | some hs₀ =>
                rw [alookup_groupsAppend_self]
                simp [halo]
              | none =>
                rw [alookup_groupsAppend_self,
                    alookup_append_last_self g inv.groups [] halo]
                simp
            rw [hlook] at hN
            rw [hN, if_pos (by simp)]
            cases halo : alookup g inv.groups with
            | some hs₀ =>
              rw [if_pos (by simp [halo])]
              simp [halo, List.append_assoc]
            | none =>
              rw [if_pos (by simp)]
              simp [halo]
          · have hne : g₀ ≠ g := fun hh => hgg hh.symm
            rw [hostsSpec_cons_elig_ne rest gb ip g g₀ vm he hgr hne]
            have hlook : alookup g (step_next full ip inv g₀ vm).groups =
                alookup g inv.groups := by
              simp only [step_next]
              rw [alookup_groupsAppend_ne g g₀ hgg]
              cases halo : alookup g₀ inv.groups with
              | some hs₀ => rfl
              | none => rw [alookup_append_last_ne g g₀ hgg]
            rw [hlook] at hN
            exact hN

/-! ## Hostvars values come from rescanning the full list (claim C9) -/

lemma list_loop_hostvars (full : List VM) (gb : String) (ip : Bool) :
    ∀ l inv inv₂, list_loop full gb ip inv l = Except.ok inv₂ → ∀ x w,
      alookup x inv₂.hostvars = some w →
      alookup x inv.hostvars = some w ∨ w = output_vm_data full x := by
  intro l
  induction l with
  | nil =>
    intro inv inv₂ h x w hw
    left
    rw [Except.ok.inj h]
    exact hw
  | cons vm rest ih =>
    intro inv inv₂ h x w hw
    cases he : eligible vm with
    | false =>
      have hs := list_step_skip full gb ip inv vm he
      simp only [list_loop, hs] at h
      exact ih inv inv₂ h x w hw
    | true =>
      have hs := list_step_elig full gb ip inv vm he
      cases hgr : vm_group gb vm with
      | none =>
        simp only [hgr] at hs
        simp only [list_loop, hs] at h
        exact Except.noConfusion h
      | some group =>
        simp only [hgr] at hs
        by_cases hm : group = "all" ∨ group = "_meta"
        · rw [if_pos hm] at hs
          simp only [list_loop, hs] at h
          exact Except.noConfusion h
        · rw [if_neg hm] at hs
          simp only [list_loop, hs] at h
          rcases ih (step_next full ip inv group vm) inv₂ h x w hw with h₁ | h₁
          · rw [show (step_next full ip inv group vm).hostvars =
                  assocSet inv.hostvars (hostId ip vm) (output_vm_data full (hostId ip vm))
                from rfl,
                alookup_assocSet] at h₁
            by_cases hx : x = hostId ip vm
            · rw [if_pos hx] at h₁
              right
              rw [hx]
              exact (Option.some.inj h₁).symm
            · rw [if_neg hx] at h₁
              exact Or.inl h₁
          · exact Or.inr h₁

/-! ## The document skeleton ignores filtered records (claim C2, amended) -/

lemma list_step_sim (f₁ f₂ : List VM) (gb : String) (ip : Bool) (a b : Inventory) (vm : VM)
    (hsim : invSim a b) :
    (∃ e, list_step f₁ gb ip a vm = Except.error e ∧ list_step f₂ gb ip b vm = Except.error e) ∨
    (∃ a₂ b₂, list_step f₁ gb ip a vm = Except.ok a₂ ∧ list_step f₂ gb ip b vm = Except.ok b₂ ∧
      invSim a₂ b₂) := by
  cases he : eligible vm with
  | false =>
    right
    exact ⟨a, b, list_step_skip f₁ gb ip a vm he, list_step_skip f₂ gb ip b vm he, hsim⟩
  | true =>
    have h₁ := list_step_elig f₁ gb ip a vm he
    have h₂ := list_step_elig f₂ gb ip b vm he
    cases hgr : vm_group gb vm with
    | none =>
      simp only [hgr] at h₁ h₂
      left
      exact ⟨PyError.nameError, h₁, h₂⟩
    | some group =>
      simp only [hgr] at h₁ h₂
      by_cases hm : group = "all" ∨ group = "_meta"
      · rw [if_pos hm] at h₁ h₂
        left
        exact ⟨PyError.keyError, h₁, h₂⟩
      · rw [if_neg hm] at h₁ h₂
        right
        refine ⟨step_next f₁ ip a group vm, step_next f₂ ip b group vm, h₁, h₂, ?_, ?_, ?_⟩
        · simp [step_next, hsim.1]
        · simp [step_next, hsim.2.1]
        · simp only [step_next, hvKeys]
          rw [keysOf_assocSet, keysOf_assocSet]
          have hk : keysOf a.hostvars = keysOf b.hostvars := hsim.2.2
          rw [hk]

lemma list_loop_sim (f₁ f₂ : List VM) (gb : String) (ip : Bool) :
    ∀ l a b, invSim a b →
      (∃ e, list_loop f₁ gb ip a l = Except.error e ∧ list_loop f₂ gb ip b l = Except.error e) ∨
      (∃ a₂ b₂, list_loop f₁ gb ip a l = Except.ok a₂ ∧ list_loop f₂ gb ip b l = Except.ok b₂ ∧
        invSim a₂ b₂) := by
  intro l
  induction l with
  | nil =>
    intro a b hsim
    right
    exact ⟨a, b, rfl, rfl, hsim⟩
  | cons vm rest ih =>
    intro a b hsim
    rcases list_step_sim f₁ f₂ gb ip a b vm hsim with ⟨e, h₁, h₂⟩ | ⟨a₂, b₂, h₁, h₂, hsim₂⟩
    · left
      refine ⟨e, ?_, ?_⟩
      · simp [list_loop, h₁]
      · simp [list_loop, h₂]
    · simp only [list_loop, h₁, h₂]
      exact ih a₂ b₂ hsim₂

lemma list_loop_filter_elig (full : List VM) (gb : String) (ip : Bool) :
    ∀ l inv, list_loop full gb ip inv (l.filter eligible) = list_loop full gb ip inv l := by
  intro l
  induction l with
  | nil => intro inv; rfl
  | cons vm rest ih =>
    intro inv
    cases he : eligible vm with
    | false =>
      have hs := list_step_skip full gb ip inv vm he
      simp only [List.filter_cons, he, if_false, Bool.false_eq_true, list_loop, hs]
      exact ih inv
    | true =>
      simp only [List.filter_cons, he, if_true, list_loop]
      cases hstep : list_step full gb ip inv vm with
      | error e => rfl
      | ok inv₂ => exact ih inv₂

/-! ## The claims -/

/-- C1: per field, the environment variable overrides the file value when
the file carries the key; but because Python evaluates the `os.getenv`
default argument eagerly, a key absent from the file aborts resolution
with its `KeyError` (`sys.exit(1)`) even when the corresponding
environment variable is set — contrary to the claim (and to the script's
own documentation) that resolution fails only when a field is absent from
both sources. -/
theorem config_get_vars_eager_default :
    config_get_vars envHostSet fileAll =
      Except.ok [("esxi_host", "192.0.2.1"), ("esxi_port", "443"), ("esxi_username", "root"),
                 ("esxi_password", "PASSWORD"), ("group_by", "vm_os_type_id")] ∧
    config_get_vars envHostSet fileNoHost = Except.error "esxi_host" :=
  ⟨rfl, rfl⟩

/-- C2 (counterexample): an excluded record does affect the output
document.  The powered-off `vmB` shares hostname `h` with the eligible
`vmA`, and it is `vmB`'s projection that ends up stored under
`_meta.hostvars["h"]`, so the document for `[vmA, vmB]` differs from the
document for `[vmA]` alone. -/
theorem output_vm_list_data_filtered_record_affects_hostvars :
    hostvarsAt (output_vm_list_data [vmA, vmB] "vm_os_type_id" false) "h" =
      some (some (vm_project vmB)) ∧
    hostvarsAt (output_vm_list_data [vmA] "vm_os_type_id" false) "h" =
      some (some (vm_project vmA)) ∧
    eligible vmB = false ∧
    vm_project vmB ≠ vm_project vmA :=
  ⟨rfl, rfl, rfl, by decide⟩

/-- C2 (amended): a record whose power state is `notRunning` or whose
tools status is `toolsNotInstalled` contributes no entry to any group's
hosts list, no group name to `all.children`, and no key to
`_meta.hostvars`: the document skeleton (error status, children, group
hosts lists, hostvars key set) computed from the list equals the one
computed from its eligible sublist.  Hostvars values, however, may still
be supplied by excluded records. -/
theorem output_vm_list_data_skeleton_ignores_filtered (l : List VM) (gb : String) (ip : Bool) :
    invSkeleton (output_vm_list_data l gb ip) =
      invSkeleton (output_vm_list_data (l.filter eligible) gb ip) := by
  simp only [output_vm_list_data]
  rw [← list_loop_filter_elig l gb ip l ⟨[], [], []⟩]
  rcases list_loop_sim l (l.filter eligible) gb ip (l.filter eligible)
      ⟨[], [], []⟩ ⟨[], [], []⟩ ⟨rfl, rfl, rfl⟩ with ⟨e, h₁, h₂⟩ | ⟨a₂, b₂, h₁, h₂, hsim⟩
  · rw [h₁, h₂]
  · rw [h₁, h₂]
    simp [invSkeleton, hsim.1, hsim.2.1, hsim.2.2]

/-- C3: in any list-mode document the loop returns, a host identifier
appears in some group's hosts list exactly when `_meta.hostvars` has an
entry under that key, and the hostvars keys are pairwise distinct. -/
theorem output_vm_list_data_hosts_hostvars_agree (l : List VM) (gb : String) (ip : Bool)
    (inv : Inventory) (x : String) (hok : output_vm_list_data l gb ip = Except.ok inv) :
    (x ∈ hostsOf inv.groups ↔ x ∈ hvKeys inv) ∧ (hvKeys inv).Nodup := by
  simp only [output_vm_list_data] at hok
  have h := list_loop_hosts_hostvars l gb ip l ⟨[], [], []⟩ inv hok
    ⟨fun y => by simp [hostsOf, hvKeys, keysOf], by simp [hvKeys, keysOf]⟩
  exact ⟨h.1 x, h.2⟩

/-- Witness for C3 at the concrete input `[vmA]`. -/
theorem output_vm_list_data_hosts_hostvars_agree_witness :
    output_vm_list_data [vmA] "vm_os_type_id" false = Except.ok cInvA ∧
    (("h" ∈ hostsOf cInvA.groups ↔ "h" ∈ hvKeys cInvA) ∧ (hvKeys cInvA).Nodup) :=
  ⟨rfl, output_vm_list_data_hosts_hostvars_agree [vmA] "vm_os_type_id" false cInvA "h" rfl⟩

/-- C4: with `group_by = "vm_annotation_group"` the group is the word run
captured by `(.*)(group=)(\w+)(,|;|:|\s|$)` from the record's annotation,
and `"ungrouped"` when the pattern does not match; concretely
`"env=prod,group=web1;team=x"` yields `"web1"` and `"no group here"`
yields `"ungrouped"`. -/
theorem annot_group_pattern :
    vm_group "vm_annotation_group" vmAnnotProd = some "web1" ∧
    vm_group "vm_annotation_group" vmAnnotPlain = some "ungrouped" ∧
    annotGroup "env=prod,group=web1;team=x" = "web1" ∧
    annotGroup "no group here" = "ungrouped" :=
  ⟨rfl, rfl, rfl, rfl⟩

/-- C5: single-host mode scans every record with no power-state or
tools-status filtering, and each match overwrites the whole accumulator,
so the result is the projection of the last matching record in iteration
order (or the empty record when none matches). -/
theorem output_vm_data_last_match_wins (vm_list : List VM) (host : String) :
    output_vm_data vm_list host =
      Option.map vm_project (lastMatchingRecord (vm_matches host) vm_list) :=
  output_vm_data_eq_lastMatch vm_list host

/-- C6: a host query matching no record's guest IP address or guest
hostname produces the empty attribute record, not an error. -/
theorem output_vm_data_no_match_empty (l : List VM) (host : String)
    (h : l.all (fun vm => !(vm_matches host vm)) = true) :
    output_vm_data l host = none := by
  rw [output_vm_data_eq_lastMatch,
      lastMatchingRecord_eq_none (vm_matches host) l (fun vm hvm => by
        have := List.all_eq_true.mp h vm hvm
        simpa using this)]
  rfl

/-- Witness for C6 at the concrete input `[vmA]` and an unmatched query. -/
theorem output_vm_data_no_match_empty_witness :
    ([vmA].all (fun vm => !(vm_matches "192.0.2.99" vm)) = true) ∧
    output_vm_data [vmA] "192.0.2.99" = none :=
  ⟨rfl, output_vm_data_no_match_empty [vmA] "192.0.2.99" rfl⟩

/-- C7: in any list-mode document the loop returns, `all.children` is the
first-occurrence deduplication of the eligible records' groups, in
iteration order, and contains no duplicates. -/
theorem output_vm_list_data_children_first_occurrence (l : List VM) (gb : String) (ip : Bool)
    (inv : Inventory) (hok : output_vm_list_data l gb ip = Except.ok inv) :
    inv.children = firstOccur [] (eligGroups gb l) ∧ inv.children.Nodup := by
  simp only [output_vm_list_data] at hok
  have h := list_loop_children l gb ip l ⟨[], [], []⟩ inv hok
  refine ⟨h, ?_⟩
  rw [h]
  exact firstOccur_nodup (eligGroups gb l) [] (by simp)

/-- Witness for C7 at the concrete input `[vmA]`. -/
theorem output_vm_list_data_children_first_occurrence_witness :
    output_vm_list_data [vmA] "vm_os_type_id" false = Except.ok cInvA ∧
    (cInvA.children = firstOccur [] (eligGroups "vm_os_type_id" [vmA]) ∧
      cInvA.children.Nodup) :=
  ⟨rfl, output_vm_list_data_children_first_occurrence [vmA] "vm_os_type_id" false cInvA rfl⟩

/-- C8: in any list-mode document the loop returns, each group's hosts
list is exactly the host identifiers of the eligible records resolving to
that group, in iteration order, one entry per qualifying record and with
no de-duplication. -/
theorem output_vm_list_data_hosts_no_dedup (l : List VM) (gb : String) (ip : Bool)
    (inv : Inventory) (g : String) (hok : output_vm_list_data l gb ip = Except.ok inv) :
    alookup g inv.groups =
      if hostsSpec l gb ip g = [] then none else some (hostsSpec l gb ip g) := by
  simp only [output_vm_list_data] at hok
  have h := list_loop_groups l gb ip l ⟨[], [], []⟩ inv hok g
  rw [h]
  simp only [alookup]
  by_cases hsp : hostsSpec l gb ip g = [] <;> simp [hsp]

/-- Witness for C8: `vmA` and `vmC` share IP `10.0.0.5` and group, and
the hosts list holds the identifier twice. -/
theorem output_vm_list_data_hosts_no_dedup_witness :
    output_vm_list_data [vmA, vmC] "vm_os_type_id" true = Except.ok cInvDup ∧
    hostsSpec [vmA, vmC] "vm_os_type_id" true "ubuntu64Guest" = ["10.0.0.5", "10.0.0.5"] ∧
    alookup "ubuntu64Guest" cInvDup.groups =
      (if hostsSpec [vmA, vmC] "vm_os_type_id" true "ubuntu64Guest" = [] then none
       else some (hostsSpec [vmA, vmC] "vm_os_type_id" true "ubuntu64Guest")) :=
  ⟨rfl, rfl,
   output_vm_list_data_hosts_no_dedup [vmA, vmC] "vm_os_type_id" true cInvDup "ubuntu64Guest" rfl⟩

/-- C9: every hostvars entry of a list-mode document is computed by
rescanning the entire unfiltered input list: the stored value is the
projection of the last record in the whole list — filtered-out records
included — whose guest IP address or guest hostname equals the key. -/
theorem output_vm_list_data_hostvars_from_full_list (l : List VM) (gb : String) (ip : Bool)
    (inv : Inventory) (x : String) (w : Option VMInfo)
    (hok : output_vm_list_data l gb ip = Except.ok inv)
    (hx : alookup x inv.hostvars = some w) :
    w = Option.map vm_project (lastMatchingRecord (vm_matches x) l) := by
  simp only [output_vm_list_data] at hok
  rcases list_loop_hostvars l gb ip l ⟨[], [], []⟩ inv hok x w hx with h | h
  · simp [alookup] at h
  · rw [h, output_vm_data_eq_lastMatch]

/-- Witness for C9: the excluded `vmB` shares hostname `h` with the
eligible `vmA` and supplies the value stored under `"h"`. -/
theorem output_vm_list_data_hostvars_from_full_list_witness :
    output_vm_list_data [vmA, vmB] "vm_os_type_id" false = Except.ok cInvAB ∧
    eligible vmB = false ∧
    alookup "h" cInvAB.hostvars = some (some (vm_project vmB)) ∧
    some (vm_project vmB) =
      Option.map vm_project (lastMatchingRecord (vm_matches "h") [vmA, vmB]) :=
  ⟨rfl, rfl, rfl,
   output_vm_list_data_hostvars_from_full_list [vmA, vmB] "vm_os_type_id" false cInvAB "h"
     (some (vm_project vmB)) rfl rfl⟩

/-- C10: a `group_by` value other than the two recognised literals leaves
the Python local `group` unassigned, so the first eligible record raises
`UnboundLocalError` and no document is produced; with no eligible record
the loop never reaches that point and the empty document is returned. -/
theorem output_vm_list_data_unrecognized_group_by (l : List VM) (gb : String) (ip : Bool)
    (h₁ : gb ≠ "vm_os_type_id") (h₂ : gb ≠ "vm_annotation_group") :
    (l.any eligible = true → output_vm_list_data l gb ip = Except.error PyError.nameError) ∧
    (l.all (fun vm => !(eligible vm)) = true →
      output_vm_list_data l gb ip = Except.ok ⟨[], [], []⟩) := by
  constructor
  · intro h
    exact list_loop_unrec l gb ip h₁ h₂ l ⟨[], [], []⟩ h
  · intro h
    apply list_loop_all_inelig
    intro vm hvm
    have := List.all_eq_true.mp h vm hvm
    simpa using this

/-- Witness for C10: `"bogus"` with one eligible record errors, with one
ineligible record yields the empty document. -/
theorem output_vm_list_data_unrecognized_group_by_witness :
    ("bogus" ≠ "vm_os_type_id") ∧ ("bogus" ≠ "vm_annotation_group") ∧
    output_vm_list_data [vmA] "bogus" false = Except.error PyError.nameError ∧
    output_vm_list_data [vmB] "bogus" false = Except.ok ⟨[], [], []⟩ :=
  ⟨by decide, by decide,
   (output_vm_list_data_unrecognized_group_by [vmA] "bogus" false (by decide) (by decide)).1 rfl,
   (output_vm_list_data_unrecognized_group_by [vmB] "bogus" false (by decide) (by decide)).2 rfl⟩

end Esxi
